import Mathlib

/-
Verification of the Manhattan repository's Python layer against its
natural-language specification.

The development shallowly embeds the relevant parts of
`src/python/src/env.py` (GridVecEnv / GridEnvWorker) and
`src/python/src/environment/manhattan.py` (ManhattanEnv).

Modelling conventions:
 - Python floats are modelled as rationals (ℚ); machine integers as ℕ.
 - `assert` statements and `raise`d exceptions are modelled by returning
   `Except PErr _` from the embedded function.
 - Rust-side opaque objects (GridState, cars, passengers, stations) are
   modelled as Lean structures holding exactly the fields the Python layer
   reads.  The rust distance oracle `rust.calculate_distance` is an
   explicit function parameter `dist : Coords → Coords → ℕ`.
 - Configuration constants are those fixed by `generate_grid_opts` /
   `GridVecEnv.__init__`: car_passenger_slots = 4, passenger_radius = 5,
   car_radius = 3, charging_station_count = 4,
   charging_station_capacity = 1, width = 15, height = 10,
   MAX_DISTANCE = 100, MAX_TIME = 300.  `passengers_per_car` (1 or 4
   depending on the variant) stays an explicit argument `ppc`.
-/

/-- The four grid directions (`rust.Direction`). -/
inductive Direction where
  | Up
  | Right
  | Down
  | Left
deriving DecidableEq

/-- A grid position as read by the Python layer: `coords.direction`,
`coords.road`, `coords.section` (`section` is a Lean keyword, so the field
is named `sect`). -/
structure Coords where
  direction : Direction
  road : ℕ
  sect : ℕ
deriving DecidableEq

/-- The `(x, y)` pair computed at the top of `GridVecEnv._parse_coords`:
horizontal directions map `(section, road)` to `(x, y)`, vertical ones
`(road, section)`. -/
def Coords.xy (c : Coords) : ℕ × ℕ :=
  match c.direction with
  | .Right => (c.sect, c.road)
  | .Left => (c.sect, c.road)
  | .Up => (c.road, c.sect)
  | .Down => (c.road, c.sect)

/-- `rust.PyCarType`. -/
inductive CarType where
  | Agent
  | Npc
deriving DecidableEq

/-- A passenger riding in a car, with the fields `_parse_car_passengers`
reads. -/
structure CarPassenger where
  destination : Coords
  distance_to_destination : ℕ
  ticks_since_request : ℕ
deriving DecidableEq

/-- An idle passenger, with the fields `_parse_idle_passengers` reads. -/
structure IdlePassenger where
  pos : Coords
  destination : Coords
  distance_to_destination : ℕ
  ticks_since_request : ℕ
deriving DecidableEq

/-- A car as seen from a charging station's `cars` list
(`_parse_charging_station` only reads its battery). -/
structure CSCar where
  battery : ℚ
deriving DecidableEq

/-- A charging station (`state.charging_stations[i]`). -/
structure ChargingStation where
  pos : Coords
  cars : List CSCar
deriving DecidableEq

/-- `rust.PyAction`: the four tagged action variants.  Each carries the
opaque raw index (second constructor argument of the Python factory
functions; `None` for the reset-time random action). -/
inductive PyAction where
  | drop_off_passenger (p : CarPassenger) (raw : Option ℕ) (idx : ℕ)
  | pick_up_passenger (p : IdlePassenger) (raw : Option ℕ) (idx : ℕ)
  | charge_battery (cs : ChargingStation) (raw : Option ℕ)
  | head_towards (d : Direction) (raw : Option ℕ)
deriving DecidableEq

/-- `action.is_head_towards()`. -/
def PyAction.is_head_towards : PyAction → Bool
  | .head_towards _ _ => true
  | _ => false

/-- A car as read by the Python layer.  In the source
`car.pos.in_charging_station` is an attribute of the position object; it is
flattened into the car here. -/
structure Car where
  pos : Coords
  in_charging_station : Bool
  battery : ℚ
  passengers : List CarPassenger
  ty : CarType
  recent_actions : List PyAction
  active_action : Option PyAction
  ticks_since_out_of_battery : ℕ
deriving DecidableEq

/-- The per-tick event lists; `calculate_reward` only reads their lengths,
so they are modelled as counts. -/
structure Events where
  car_dropped_off_passenger : ℕ
  car_picked_up_passenger : ℕ
  car_out_of_battery : ℕ
deriving DecidableEq

/-- A per-car observation snapshot (`GridState`).  The method
`total_passenger_count()` is modelled as a field. -/
structure GridState where
  pov_car : Car
  other_cars : List Car
  idle_passengers : List IdlePassenger
  charging_stations : List ChargingStation
  events : Events
  total_passenger_count : ℕ
  ticks_passed : ℕ
  can_turn : Bool
deriving DecidableEq

/-- Python exceptions escaping the embedded functions. -/
inductive PErr where
  | assertionError
  | valueError
deriving DecidableEq

/-- `GridVecEnv.car_passenger_slots` (set to 4 in `__init__`). -/
def car_passenger_slots : ℕ := 4

/-- `GridVecEnv.passenger_radius` (grid_opts value, 5 in
`generate_grid_opts`). -/
def passenger_radius : ℕ := 5

/-- `GridVecEnv.car_radius` (grid_opts value, 3 in `generate_grid_opts`). -/
def car_radius : ℕ := 3

/-- `GridVecEnv.charging_station_count` (hardcoded 4). -/
def charging_station_count : ℕ := 4

/-- `GridVecEnv.charging_station_capacity` (hardcoded 1). -/
def charging_station_capacity : ℕ := 1

/-- `GridVecEnv.action_count`. -/
def action_count : ℕ := car_passenger_slots + passenger_radius + 1 + 4

/-- `GridVecEnv.parse_action`.  Failed `assert`s are
`.error .assertionError`; the final `raise ValueError` is
`.error .valueError`.  The numeric thresholds are the accumulated `low`
values: 4 = car_passenger_slots, 9 = + passenger_radius, 10 = + 1. -/
def parse_action (ppc : ℕ) (state : GridState) (action : ℕ) :
    Except PErr PyAction :=
  if action < 4 then
    -- drop off passenger with that index
    if h : action < state.pov_car.passengers.length then
      .ok (.drop_off_passenger (state.pov_car.passengers.get ⟨action, h⟩)
        (some action) action)
    else .error .assertionError
  else if action < 4 + 5 then
    -- pick up passenger
    let idx := action - 4
    if h : idx < state.idle_passengers.length then
      if state.pov_car.passengers.length < ppc then
        .ok (.pick_up_passenger (state.idle_passengers.get ⟨idx, h⟩)
          (some action) idx)
      else .error .assertionError
    else .error .assertionError
  else if action < 9 + 1 then
    -- go to charging station
    let idx := action - 9
    if h : idx < state.charging_stations.length then
      .ok (.charge_battery (state.charging_stations.get ⟨idx, h⟩)
        (some action))
    else .error .assertionError
  else if action < 10 + 4 then
    -- head towards direction: {0: Up, 2: Down, 1: Right, 3: Left}
    let direction_idx := action - 10
    let direction :=
      if direction_idx = 0 then Direction.Up
      else if direction_idx = 1 then Direction.Right
      else if direction_idx = 2 then Direction.Down
      else Direction.Left
    .ok (.head_towards direction (some action))
  else .error .valueError

/-- The action-index intake of `ManhattanEnv.agent_callback`
(manhattan.py lines 105-113): an out-of-range passenger index is replaced
by 0 and a -10000 reward penalty is recorded (the returned Bool); if the
index is still out of range (no waiting passengers) a `ValueError` is
raised.  The returned ℕ is the index used to pick the passenger. -/
def agent_callback_intake (waiting_len : ℕ) (idx : ℕ) :
    Except PErr (ℕ × Bool) :=
  let step : ℕ × Bool := if waiting_len ≤ idx then (0, true) else (idx, false)
  if waiting_len ≤ step.1 then .error .valueError
  else .ok step

/-- `GridVecEnv.calculate_reward`.  In the source, `action_valid` defaults
to `True`; `(old_state or new_state)` always evaluates to `old_state`
because state objects are truthy.  The `verbose` print is a side effect
with no bearing on the returned value. -/
def calculate_reward (old_state new_state : GridState)
    (action_valid : Bool) : ℚ :=
  let reward : ℚ := 0
  let reward := if old_state.total_passenger_count = 0
    then reward + 5000 else reward - 1
  let events := new_state.events
  let events_reward : ℚ :=
    100 * events.car_dropped_off_passenger
    + 5 * events.car_picked_up_passenger
    - 500 * events.car_out_of_battery
  let reward := reward + events_reward
  let reward :=
    match new_state.pov_car.recent_actions with
    | [] => reward
    | action :: _ =>
      if action.is_head_towards then reward - 1 else reward
  reward

/-- `GridVecEnv._parse_coords`: `[x, y, min(distance_to_pov, MAX_DISTANCE)]`.
The `assert x < self.width and y < self.height` is a well-formedness
condition (`xyValid` below); the encoding itself is total. -/
def parse_coords (dist : Coords → Coords → ℕ) (coords pov_pos : Coords) :
    List ℚ :=
  [((coords.xy).1 : ℚ), ((coords.xy).2 : ℚ), (min (dist coords pov_pos) 100 : ℕ)]

/-- `GridVecEnv._null_coords`. -/
def null_coords : List ℚ := [0, 0, 0]

/-- `GridVecEnv._null_passenger`. -/
def null_passenger : List ℚ := [0] ++ null_coords ++ [0, 0]

/-- One parsed passenger block inside `_parse_car_passengers`. -/
def car_passenger_block (ppc : ℕ) (dist : Coords → Coords → ℕ) (car : Car)
    (p : CarPassenger) : List ℚ :=
  let can_pick_up : Bool := car.passengers.length < ppc
  [if can_pick_up then (1 : ℚ) else 0]
    ++ parse_coords dist p.destination car.pos
    ++ [((min p.distance_to_destination 100 : ℕ) : ℚ),
        ((min p.ticks_since_request 300 : ℕ) : ℚ)]

/-- The `for passenger in car.passengers` loop of `_parse_car_passengers`,
accumulating the flat list `passengers` and breaking when its flat length
equals `passengers_per_car` (a slip in the source: the flat length is
compared against the passenger count; with `passengers_per_car ≤ 4 < 6`
the break never fires). -/
def car_passengers_loop (ppc : ℕ) (dist : Coords → Coords → ℕ) (car : Car) :
    List CarPassenger → List ℚ → List ℚ
  | [], acc => acc
  | p :: rest, acc =>
    let acc2 := acc ++ car_passenger_block ppc dist car p
    if acc2.length = ppc then acc2 else car_passengers_loop ppc dist car rest acc2

/-- The `while len(...) < target: extend(block)` padding pattern of
`_parse_car_passengers`.  The source loops forever on an empty block; the
guard `block.length ≠ 0` makes the embedding total (the only block used,
`null_passenger`, has 6 entries). -/
def pad_flat (block : List ℚ) (target : ℕ) (acc : List ℚ) : List ℚ :=
  if h : acc.length < target ∧ block.length ≠ 0 then
    pad_flat block target (acc ++ block)
  else acc
termination_by target - acc.length
decreasing_by
  simp only [List.length_append]
  omega

/-- `GridVecEnv._parse_car_passengers`: loop, then pad with
`_null_passenger` up to `car_passenger_slots * neurons_per_passenger`
(= 4 * 6 = 24) entries. -/
def parse_car_passengers (ppc : ℕ) (dist : Coords → Coords → ℕ)
    (car : Car) : List ℚ :=
  pad_flat null_passenger (car_passenger_slots * null_passenger.length)
    (car_passengers_loop ppc dist car car.passengers [])

/-- `GridVecEnv._parse_car`. -/
def parse_car (ppc : ℕ) (dist : Coords → Coords → ℕ) (car : Car) : List ℚ :=
  parse_coords dist car.pos car.pos
    ++ [if car.in_charging_station then (1 : ℚ) else 0,
        max (car.battery * 100) 0]
    ++ parse_car_passengers ppc dist car

/-- `GridVecEnv._null_car`. -/
def null_car : List ℚ :=
  null_coords ++ ([0, 0] : List ℚ)
    ++ (List.replicate car_passenger_slots null_passenger).flatten

/-- The `while len(cars) < self.car_radius: cars.append(null_car)` /
`while len(...) < self.passenger_radius: append(null...)` padding pattern
(block-level padding). -/
def pad_blocks (nullBlock : List ℚ) (target : ℕ) (acc : List (List ℚ)) :
    List (List ℚ) :=
  if h : acc.length < target then pad_blocks nullBlock target (acc ++ [nullBlock])
  else acc
termination_by target - acc.length
decreasing_by
  simp only [List.length_append, List.length_cons, List.length_nil]
  omega

/-- The `for car in cars` loop body of `_parse_cars` (skip non-agent cars,
break at `car_radius` parsed cars). -/
def parse_cars_loop (ppc : ℕ) (dist : Coords → Coords → ℕ) :
    List Car → List (List ℚ) → List (List ℚ)
  | [], acc => acc
  | c :: rest, acc =>
    if c.ty ≠ CarType.Agent then parse_cars_loop ppc dist rest acc
    else
      let acc2 := acc ++ [parse_car ppc dist c]
      if acc2.length = car_radius then acc2 else parse_cars_loop ppc dist rest acc2

/-- `GridVecEnv._parse_cars`.  The source shadows its parameter with
`cars = []` immediately before the `for car in cars` loop, so the loop
iterates over that fresh empty list and the parameter is never read. -/
def parse_cars (ppc : ℕ) (dist : Coords → Coords → ℕ)
    (carsInput : List Car) : List ℚ :=
  let cars : List (List ℚ) := parse_cars_loop ppc dist ([] : List Car) []
  (pad_blocks null_car car_radius cars).flatten

/-- One parsed idle-passenger block inside `_parse_idle_passengers`. -/
def idle_passenger_block (dist : Coords → Coords → ℕ) (pov_pos : Coords)
    (p : IdlePassenger) : List ℚ :=
  [1]
    ++ parse_coords dist p.pos pov_pos
    ++ parse_coords dist p.destination pov_pos
    ++ [((min p.distance_to_destination 100 : ℕ) : ℚ),
        ((min p.ticks_since_request 300 : ℕ) : ℚ)]

/-- The `for passenger in idle_passengers` loop of
`_parse_idle_passengers` (break at `passenger_radius` parsed blocks). -/
def idle_passengers_loop (dist : Coords → Coords → ℕ) (pov_pos : Coords) :
    List IdlePassenger → List (List ℚ) → List (List ℚ)
  | [], acc => acc
  | p :: rest, acc =>
    let acc2 := acc ++ [idle_passenger_block dist pov_pos p]
    if acc2.length = passenger_radius then acc2
    else idle_passengers_loop dist pov_pos rest acc2

/-- The null idle-passenger block of `_parse_idle_passengers`. -/
def null_idle_passenger : List ℚ := [0] ++ null_coords ++ null_coords ++ [0, 0]

/-- `GridVecEnv._parse_idle_passengers`. -/
def parse_idle_passengers (dist : Coords → Coords → ℕ)
    (idle_passengers : List IdlePassenger) (pov_car : Car) : List ℚ :=
  (pad_blocks null_idle_passenger passenger_radius
    (idle_passengers_loop dist pov_car.pos idle_passengers [])).flatten

/-- `GridVecEnv._parse_charging_station`.  `slots` starts as
`[0, 0] * capacity` (capacity = 1) and is overwritten only when
`len(charging_station.cars) == 4`. -/
def parse_charging_station (dist : Coords → Coords → ℕ)
    (charging_station : ChargingStation) (pov_car : Car) : List ℚ :=
  let slots : List ℚ :=
    if h : charging_station.cars.length = 4 then
      [1, max (charging_station.cars.get ⟨0, by omega⟩).battery 0]
    else [0, 0]
  parse_coords dist charging_station.pos pov_car.pos ++ slots

/-- `GridVecEnv._parse_charging_stations`: the loop breaks after
`charging_station_count` (= 4) parsed stations. -/
def parse_charging_stations (dist : Coords → Coords → ℕ) (state : GridState) :
    List ℚ :=
  ((state.charging_stations.take charging_station_count).map
    (fun cs => parse_charging_station dist cs state.pov_car)).flatten

/-- `GridVecEnv.parse_observation` (the list handed to `np.array`).
`previous_actions` is computed in the source but commented out of
`obs_list`, so it is omitted here. -/
def parse_observation (ppc : ℕ) (dist : Coords → Coords → ℕ)
    (state : GridState) : List ℚ :=
  [if state.can_turn then (1 : ℚ) else 0,
   ((min state.total_passenger_count 49 : ℕ) : ℚ)]
    ++ parse_car ppc dist state.pov_car
    ++ parse_cars ppc dist state.other_cars
    ++ parse_idle_passengers dist state.idle_passengers state.pov_car
    ++ parse_charging_stations dist state
    ++ [((min state.pov_car.ticks_since_out_of_battery (300 - 1) : ℕ) : ℚ)]

/-- `coords_ospc` from `GridVecEnv._observation_space`: per-entry sizes. -/
def coords_ospc : List ℕ := [15, 10, 100 + 1]

/-- `car_passenger_ospc`. -/
def car_passenger_ospc : List ℕ := [2] ++ coords_ospc ++ [100 + 1, 300 + 1]

/-- `car_passengers_ospc` (the for-loop extends the block
`car_passenger_slots` times). -/
def car_passengers_ospc : List ℕ :=
  (List.replicate car_passenger_slots car_passenger_ospc).flatten

/-- `idle_passenger_ospc`. -/
def idle_passenger_ospc : List ℕ :=
  [2] ++ coords_ospc ++ coords_ospc ++ [100 + 1, 300 + 1]

/-- `idle_passengers_ospc`. -/
def idle_passengers_ospc : List ℕ :=
  (List.replicate passenger_radius idle_passenger_ospc).flatten

/-- `car_ospc` (`in_charging_station_ospc = [2]`, `battery_ospc = [101]`). -/
def car_ospc : List ℕ := coords_ospc ++ [2] ++ [100 + 1] ++ car_passengers_ospc

/-- `cars_ospc`. -/
def cars_ospc : List ℕ := (List.replicate car_radius car_ospc).flatten

/-- `charging_station_ospc` (`charging_station_slots_ospc = [2, 2] * 1`). -/
def charging_station_ospc : List ℕ := coords_ospc ++ [2, 2]

/-- `charging_stations_ospc`. -/
def charging_stations_ospc : List ℕ :=
  (List.replicate charging_station_count charging_station_ospc).flatten

/-- `all_spaces` from `_observation_space`: `can_turn_spc = [2]`,
`total_passengers_spc = [50]`, `ticks_since_out_of_battery = [MAX_TIME]`;
`prev_action_spc` is commented out of `all_spaces` in the source. -/
def all_spaces : List ℕ :=
  [2] ++ [50] ++ car_ospc ++ cars_ospc ++ idle_passengers_ospc
    ++ charging_stations_ospc ++ [300]

/-- Membership of one observation entry in its `Box` interval
`[0, size - 1]` (`low = 0`, `high = all_spaces - 1`). -/
def inBound (x : ℚ) (size : ℕ) : Prop := 0 ≤ x ∧ x ≤ (size : ℚ) - 1

instance : DecidablePred fun p : ℚ × ℕ => inBound p.1 p.2 := by
  intro p
  unfold inBound
  infer_instance

instance (x : ℚ) (size : ℕ) : Decidable (inBound x size) := by
  unfold inBound
  infer_instance

/-- The `assert x < self.width and y < self.height` of `_parse_coords`:
a position whose logical coordinates lie on the 15 × 10 grid. -/
def xyValid (c : Coords) : Prop := (c.xy).1 < 15 ∧ (c.xy).2 < 10

instance (c : Coords) : Decidable (xyValid c) := by
  unfold xyValid
  infer_instance

/-- The data-model invariants assumed for an observation snapshot:
positions on the 15 × 10 grid, batteries in `[0, 1]`, at most
`passengers_per_car ≤ 4` passengers in the pov car, and the static count
of 4 charging stations from the configuration. -/
def WF (ppc : ℕ) (s : GridState) : Prop :=
  ppc ≤ 4
    ∧ xyValid s.pov_car.pos
    ∧ 0 ≤ s.pov_car.battery ∧ s.pov_car.battery ≤ 1
    ∧ s.pov_car.passengers.length ≤ ppc
    ∧ (∀ p ∈ s.pov_car.passengers, xyValid p.destination)
    ∧ (∀ p ∈ s.idle_passengers, xyValid p.pos ∧ xyValid p.destination)
    ∧ s.charging_stations.length = 4
    ∧ (∀ cs ∈ s.charging_stations, xyValid cs.pos
        ∧ ∀ c ∈ cs.cars, 0 ≤ c.battery ∧ c.battery ≤ 1)

instance (ppc : ℕ) (s : GridState) : Decidable (WF ppc s) := by
  unfold WF
  infer_instance

/-- `np.array([False] * self.action_count)`. -/
def mask_false : List Bool := List.replicate action_count false

/-- The numpy slice assignment `valid_actions[lo : lo + cnt] = True`
(indices past the end are silently clipped, as in numpy). -/
def set_true_range (m : List Bool) (lo cnt : ℕ) : List Bool :=
  m.mapIdx (fun i b => if lo ≤ i ∧ i < lo + cnt then true else b)

/-- The `for i in range(self.action_count)` search of
`GridVecEnv.action_mask` for the index whose parsed action equals the
stored `active_action`; indices whose `parse_action` raises
`AssertionError` are skipped (for `i < action_count` the `ValueError`
branch is unreachable, so skipping every `.error` is faithful). -/
def active_match_idx (ppc : ℕ) (s : GridState) (active : PyAction) :
    Option ℕ :=
  (List.range action_count).find? (fun i =>
    match parse_action ppc s i with
    | .ok a => a = active
    | .error _ => false)

/-- `valid_actions` after the drop-off slice assignment
(`valid_actions[0 : passenger_count] = True`). -/
def mask_dropoffs (s : GridState) : List Bool :=
  set_true_range mask_false 0 s.pov_car.passengers.length

/-- `valid_actions` after the pick-up slice assignment (only when the car
is below passenger capacity; `idle_passenger_count` is pre-clamped to
`passenger_radius`). -/
def mask_pickups (ppc : ℕ) (s : GridState) : List Bool :=
  if s.pov_car.passengers.length < ppc then
    set_true_range (mask_dropoffs s) 4
      (min s.idle_passengers.length passenger_radius)
  else mask_dropoffs s

/-- `valid_actions` after the head-towards block: the charging-station
block before it is entirely commented out in the source, and the four
head-towards entries (offset 10) are set only if nothing else is valid
yet. -/
def mask_head (ppc : ℕ) (s : GridState) : List Bool :=
  if (mask_pickups ppc s).any id then mask_pickups ppc s
  else set_true_range (mask_pickups ppc s) 10 4

/-- `valid_actions` after the `is_in_charging_station` battery block
(`charging_station_offset` = 4 + 5 = 9, threshold 0.98): in a station
with battery < 0.98 everything is cleared and only the charge entry is
set; outside a station the charge entry is additionally set. -/
def mask_battery (ppc : ℕ) (s : GridState) : List Bool :=
  if s.pov_car.in_charging_station then
    (if s.pov_car.battery < 98 / 100 then mask_false.set 9 true
     else mask_head ppc s)
  else
    (if s.pov_car.battery < 98 / 100 then (mask_head ppc s).set 9 true
     else mask_head ppc s)

/-- The non-active-action path of `GridVecEnv.action_mask`: the final
(redundant) `if current_battery_level < 0.98: valid_actions[9] = True`. -/
def action_mask_base (ppc : ℕ) (s : GridState) : List Bool :=
  if s.pov_car.battery < 98 / 100 then (mask_battery ppc s).set 9 true
  else mask_battery ppc s

/-- `GridVecEnv.action_mask`. -/
def action_mask (ppc : ℕ) (s : GridState) : List Bool :=
  match s.pov_car.active_action with
  | none => action_mask_base ppc s
  | some active =>
    match active_match_idx ppc s active with
    | some idx => mask_false.set idx true
    | none => action_mask_base ppc s

/-- One `env.tick()` call recorded by the coordinator model: the identity
(generation number) of the `self.env` it was invoked on, and whether the
call site was `reset_called` (True) or `ready_for_tick` (False). -/
structure TickRecord where
  gen : ℕ
  viaReset : Bool
deriving DecidableEq

/-- The mutable coordinator state of `GridVecEnv`: the
`workers_ready_for_tick` and `workers_reset_called` flag arrays, the
generation number of the current rust env (`create_rust_env` bumps it),
and the history of `env.tick()` calls. -/
structure CoordState (n : ℕ) where
  ready : Fin n → Bool
  resetFlags : Fin n → Bool
  envGen : ℕ
  ticks : List TickRecord

/-- The two worker entry points that mutate the coordinator:
`ready_for_tick(index)` (from `GridEnvWorker.send` with an action) and
`reset_called(index)` (from `send(None)`). -/
inductive CoordEvent (n : ℕ) where
  | readyForTick (i : Fin n)
  | resetCalled (i : Fin n)
deriving DecidableEq

/-- One coordinator call, mirroring `GridVecEnv.ready_for_tick` and
`GridVecEnv.reset_called`: set the flag, and when all flags are set,
tick (for reset: first create a fresh env, then tick it) and clear the
flags.  `write_episode_stats` only performs I/O and is omitted. -/
def coordStep {n : ℕ} (s : CoordState n) : CoordEvent n → CoordState n
  | .readyForTick i =>
    if (∀ j, Function.update s.ready i true j = true) then
      { s with ready := fun _ => false,
               ticks := s.ticks ++ [⟨s.envGen, false⟩] }
    else { s with ready := Function.update s.ready i true }
  | .resetCalled i =>
    if (∀ j, Function.update s.resetFlags i true j = true) then
      { s with resetFlags := fun _ => false,
               envGen := s.envGen + 1,
               ticks := s.ticks ++ [⟨s.envGen + 1, true⟩] }
    else { s with resetFlags := Function.update s.resetFlags i true }

/-- The coordinator state after `GridVecEnv.__init__` plus worker
registration (`create_rust_env` has built env generation 1; both flag
arrays are all-False; no tick has run). -/
def initCoord (n : ℕ) : CoordState n :=
  ⟨fun _ => false, fun _ => false, 1, []⟩

/-- Replay a sequence of worker calls against the coordinator. -/
def runCoord (n : ℕ) (t : List (CoordEvent n)) : CoordState n :=
  t.foldl coordStep (initCoord n)

/-- Number of `env.tick()` calls made from inside `ready_for_tick`. -/
def readyTickCount {n : ℕ} (s : CoordState n) : ℕ :=
  (s.ticks.filter (fun r => !r.viaReset)).length

/-- Number of `ready_for_tick j` calls in a trace. -/
def signalCount {n : ℕ} (j : Fin n) (t : List (CoordEvent n)) : ℕ :=
  t.countP (fun e => decide (e = CoordEvent.readyForTick j))

/-- Modelled from the spec: the per-tick battery update of the rust
engine, which is not under `src/` (spec 4.2 steps 3-4: "Apply battery
discharge proportional to configured discharge rate", with the car frozen
at 0, and "If parked at a charging station, apply charge rate until
battery saturates at 1.0"). -/
def batteryStep (discharge_rate charge_rate : ℚ) (charging : Bool)
    (b : ℚ) : ℚ :=
  if charging then min (b + charge_rate) 1 else max (b - discharge_rate) 0

/-- A car's battery after a sequence of ticks (`charging` per tick). -/
def batteryRun (discharge_rate charge_rate : ℚ) (b : ℚ)
    (ticks : List Bool) : ℚ :=
  ticks.foldl (fun x c => batteryStep discharge_rate charge_rate c x) b

/-- A waiting passenger as read by `ManhattanEnv.format_state` /
`agent_callback` (manhattan.py): `p.start`, `p.destination`.  Positions
are an opaque rust type, kept abstract as `Pos`. -/
structure MPassenger (Pos : Type) where
  start : Pos
  destination : Pos

/-- The rust car handed to `ManhattanEnv.format_state`: only its two
distance methods are used. -/
structure MCar (Pos : Type) where
  distance : Pos → ℕ
  distance_from : Pos → Pos → ℕ

/-- The rust grid state as read by `ManhattanEnv.format_state`. -/
structure MGridState (Pos : Type) where
  waiting_passengers : List (MPassenger Pos)

/-- `environment.environment.State`: a tensor (modelled as the list of its
entries; the values written are integer distances) plus the terminal
flag. -/
structure MState where
  tensor : List ℕ
  terminal : Bool

/-- The sort key comparison of `passengers.sort(key=lambda p:
car.distance(p.start))`; Python's sort is stable, as is
`List.mergeSort`. -/
def mdistLE {Pos : Type} (car : MCar Pos) (p q : MPassenger Pos) : Bool :=
  car.distance p.start ≤ car.distance q.start

/-- `ManhattanEnv.format_state`, first statement: the in-place
`passengers.sort(key=lambda p: car.distance(p.start))` (Python's sort and
`List.mergeSort` are both stable). -/
def sorted_waiting {Pos : Type} (car : MCar Pos)
    (grid_state : MGridState Pos) : List (MPassenger Pos) :=
  grid_state.waiting_passengers.mergeSort (mdistLE car)

/-- `ManhattanEnv.format_state` with `passenger_radius = r` (continued):
truncate the sorted passengers to `r`, write
`(distance to passenger, distance passenger → destination)` pairs into a
zero tensor of length `2 * r`, and flag terminal when the truncated list
is empty. -/
def format_state {Pos : Type} (r : ℕ) (car : MCar Pos)
    (grid_state : MGridState Pos) : MState :=
  let passengers := (sorted_waiting car grid_state).take r
  let tensor :=
    (passengers.map (fun p =>
      [car.distance p.start, car.distance_from p.start p.destination])).flatten
    ++ List.replicate (2 * r - 2 * passengers.length) 0
  ⟨tensor, passengers.length = 0⟩

/-- A small concrete state used to instantiate theorems: one agent car
with full battery, no passengers, nothing else on the grid. -/
def egCar : Car := ⟨⟨.Right, 0, 0⟩, false, 1, [], .Agent, [], none, 0⟩

/-- A concrete observation snapshot built from `egCar`. -/
def egState : GridState := ⟨egCar, [], [], [], ⟨0, 0, 0⟩, 0, 0, true⟩

/-- C1 counterexample: the claim promises that no exception escapes the
action-intake path, but `parse_action` raises `ValueError` on the
out-of-range index 14, and `agent_callback` raises `ValueError` when the
(downgraded) index is still out of range because no passenger is
waiting. -/
theorem c1_counterexample :
    parse_action 4 egState 14 = .error .valueError
    ∧ agent_callback_intake 0 0 = .error .valueError :=
  ⟨rfl, rfl⟩

/-- C1 (amended): `parse_action` raises `ValueError` for every action
index ≥ action_count (no downgrade, no invalid flag), while
`agent_callback` downgrades an out-of-range passenger index to index 0
with a -10000 penalty when at least one passenger is waiting, and raises
`ValueError` when none is. -/
theorem c1_action_intake :
    (∀ (ppc : ℕ) (s : GridState) (a : ℕ), 14 ≤ a →
      parse_action ppc s a = .error .valueError)
    ∧ (∀ (waiting_len idx : ℕ), 0 < waiting_len →
      agent_callback_intake waiting_len idx =
        .ok (if waiting_len ≤ idx then 0 else idx, decide (waiting_len ≤ idx)))
    ∧ (∀ idx : ℕ, agent_callback_intake 0 idx = .error .valueError) := by
  refine ⟨?_, ?_, ?_⟩
  · intro ppc s a h
    unfold parse_action
    rw [if_neg (by omega), if_neg (by omega), if_neg (by omega),
      if_neg (by omega)]
  · intro waiting_len idx h
    unfold agent_callback_intake
    by_cases hc : waiting_len ≤ idx
    · simp only [if_pos hc]
      rw [if_neg (by omega)]
      simp [hc]
    · simp only [if_neg hc]
      simp [hc]
  · intro idx
    unfold agent_callback_intake
    simp

/-- C1 witness: the amended theorem applied at concrete inputs. -/
theorem c1_action_intake_witness :
    agent_callback_intake 3 7 = .ok (0, true)
    ∧ agent_callback_intake 3 2 = .ok (2, false) := by
  constructor
  · have h := c1_action_intake.2.1 3 7 (by omega)
    simpa using h
  · have h := c1_action_intake.2.1 3 2 (by omega)
    simpa using h

/-- C2: `action_count = 14`, and for every action index the range it
falls in determines the returned tagged variant — drop-off of
`pov_car.passengers[a]` for `a < 4`, pick-up of `idle_passengers[a-4]`
for `4 ≤ a < 9` (given the index is in bounds and the car below
capacity), charge at `charging_stations[0]` for `a = 9`, head-towards
Up/Right/Down/Left for `a = 10/11/12/13`, each action carrying the raw
index `a`; `a ≥ 14` raises `ValueError`. -/
theorem c2_parse_action_ranges (ppc : ℕ) (s : GridState) (a : ℕ)
    (hdrop : a < 4 → a < s.pov_car.passengers.length)
    (hpick : 4 ≤ a → a < 9 →
      a - 4 < s.idle_passengers.length ∧ s.pov_car.passengers.length < ppc)
    (hcs : a = 9 → 0 < s.charging_stations.length) :
    action_count = 14
    ∧ (a < 4 → ∃ p, s.pov_car.passengers[a]? = some p
        ∧ parse_action ppc s a = .ok (.drop_off_passenger p (some a) a))
    ∧ (4 ≤ a → a < 9 → ∃ p, s.idle_passengers[a - 4]? = some p
        ∧ parse_action ppc s a = .ok (.pick_up_passenger p (some a) (a - 4)))
    ∧ (a = 9 → ∃ cs, s.charging_stations[0]? = some cs
        ∧ parse_action ppc s a = .ok (.charge_battery cs (some a)))
    ∧ (a = 10 → parse_action ppc s a = .ok (.head_towards .Up (some a)))
    ∧ (a = 11 → parse_action ppc s a = .ok (.head_towards .Right (some a)))
    ∧ (a = 12 → parse_action ppc s a = .ok (.head_towards .Down (some a)))
    ∧ (a = 13 → parse_action ppc s a = .ok (.head_towards .Left (some a)))
    ∧ (14 ≤ a → parse_action ppc s a = .error .valueError) := by
  refine ⟨rfl, ?_, ?_, ?_, ?_, ?_, ?_, ?_, ?_⟩
  · intro h
    have hl := hdrop h
    refine ⟨s.pov_car.passengers.get ⟨a, hl⟩, ?_, ?_⟩
    · simp [List.getElem?_eq_getElem hl]
    · unfold parse_action
      rw [if_pos h, dif_pos hl]
  · intro h4 h9
    obtain ⟨hi, hc⟩ := hpick h4 h9
    refine ⟨s.idle_passengers.get ⟨a - 4, hi⟩, ?_, ?_⟩
    · simp [List.getElem?_eq_getElem hi]
    · unfold parse_action
      rw [if_neg (by omega), if_pos (by omega), dif_pos hi, if_pos hc]
  · intro h
    subst h
    have hl : 9 - 9 < s.charging_stations.length := by
      have := hcs rfl
      omega
    refine ⟨s.charging_stations.get ⟨0, by omega⟩, ?_, ?_⟩
    · simp [List.getElem?_eq_getElem]
    · unfold parse_action
      rw [if_neg (by omega), if_neg (by omega), if_pos (by omega), dif_pos hl]
  · intro h
    subst h
    rfl
  · intro h
    subst h
    rfl
  · intro h
    subst h
    rfl
  · intro h
    subst h
    rfl
  · intro h
    unfold parse_action
    rw [if_neg (by omega), if_neg (by omega), if_neg (by omega),
      if_neg (by omega)]

/-- C2 witness: the theorem applied at action index 13 on a concrete
state. -/
theorem c2_parse_action_ranges_witness :
    parse_action 4 egState 13 = .ok (.head_towards .Left (some 13)) :=
  (c2_parse_action_ranges 4 egState 13 (by omega) (by omega)
    (by omega)).2.2.2.2.2.2.2.1 rfl

/-- C4 counterexample (the claim's negation): no pair of states
distinguishes `action_valid=False` from `action_valid=True`, because
`calculate_reward` never reads its `action_valid` parameter. -/
theorem c4_counterexample :
    ¬ ∃ old_state new_state : GridState,
      calculate_reward old_state new_state false
        ≠ calculate_reward old_state new_state true := by
  rintro ⟨o, s, h⟩
  exact h rfl

/-- C4 (amended): the action-validity flag has no influence on the reward
— `calculate_reward` ignores `action_valid` entirely (the worker's
`action_valid` attribute is initialized to True and marked
`# note: unused`). -/
theorem c4_reward_ignores_validity :
    ∀ (old_state new_state : GridState) (v w : Bool),
      calculate_reward old_state new_state v
        = calculate_reward old_state new_state w :=
  fun _ _ _ _ => rfl

/-- One battery step stays in `[0, 1]`. -/
theorem batteryStep_mem (discharge_rate charge_rate : ℚ)
    (hd : 0 ≤ discharge_rate) (hc : 0 ≤ charge_rate) (charging : Bool)
    (b : ℚ) (hb0 : 0 ≤ b) (hb1 : b ≤ 1) :
    0 ≤ batteryStep discharge_rate charge_rate charging b
      ∧ batteryStep discharge_rate charge_rate charging b ≤ 1 := by
  unfold batteryStep
  rcases charging with _ | _
  · simp only [Bool.false_eq_true, if_false]
    constructor
    · exact le_max_right _ _
    · rw [max_le_iff]
      constructor
      · linarith
      · linarith
  · simp only [if_true]
    constructor
    · rw [le_min_iff]
      constructor
      · linarith
      · linarith
    · exact min_le_right _ _

/-- C6: a battery that starts in `[0, 1]` stays in `[0, 1]` after any
sequence of (spec-modelled) discharge/charge ticks — charging saturates
at 1 and discharge is floored at 0 — and therefore the clamps
`max(car.battery * 100, 0.0)` of `_parse_car` and `max(car.battery, 0)`
of `_parse_charging_station` are identities on every reachable battery
value. -/
theorem c6_battery_bounds (discharge_rate charge_rate : ℚ)
    (hd : 0 ≤ discharge_rate) (hc : 0 ≤ charge_rate) (b : ℚ)
    (hb0 : 0 ≤ b) (hb1 : b ≤ 1) (ticks : List Bool) :
    (0 ≤ batteryRun discharge_rate charge_rate b ticks
      ∧ batteryRun discharge_rate charge_rate b ticks ≤ 1)
    ∧ max (batteryRun discharge_rate charge_rate b ticks * 100) 0
        = batteryRun discharge_rate charge_rate b ticks * 100
    ∧ max (batteryRun discharge_rate charge_rate b ticks) 0
        = batteryRun discharge_rate charge_rate b ticks := by
  have key : 0 ≤ batteryRun discharge_rate charge_rate b ticks
      ∧ batteryRun discharge_rate charge_rate b ticks ≤ 1 := by
    induction ticks generalizing b with
    | nil => exact ⟨hb0, hb1⟩
    | cons t rest ih =>
      have hstep := batteryStep_mem discharge_rate charge_rate hd hc t b hb0 hb1
      exact ih _ hstep.1 hstep.2
  refine ⟨key, ?_, ?_⟩
  · rw [max_eq_left]
    nlinarith [key.1]
  · rw [max_eq_left key.1]

/-- C6 witness: a full battery after a discharge tick and a charge tick,
with the configured variant-3 discharge rate 0.002. -/
theorem c6_battery_bounds_witness :
    (0 ≤ batteryRun (2 / 1000) (1 / 10) 1 [false, true]
      ∧ batteryRun (2 / 1000) (1 / 10) 1 [false, true] ≤ 1)
    ∧ max (batteryRun (2 / 1000) (1 / 10) 1 [false, true] * 100) 0
        = batteryRun (2 / 1000) (1 / 10) 1 [false, true] * 100
    ∧ max (batteryRun (2 / 1000) (1 / 10) 1 [false, true]) 0
        = batteryRun (2 / 1000) (1 / 10) 1 [false, true] :=
  c6_battery_bounds (2 / 1000) (1 / 10) (by norm_num) (by norm_num) 1
    (by norm_num) (by norm_num) [false, true]

/-- Per-step accounting for ready-path ticks: a step can add a ready-path
tick only by consuming worker j's pending ready flag or its fresh
`ready_for_tick j` signal. -/
theorem readyTick_step_le {n : ℕ} (s : CoordState n) (e : CoordEvent n)
    (j : Fin n) :
    readyTickCount (coordStep s e) + ((coordStep s e).ready j).toNat
      ≤ readyTickCount s + (s.ready j).toNat + signalCount j [e] := by
  have hsig : signalCount j [e]
      = if e = CoordEvent.readyForTick j then 1 else 0 := by
    simp [signalCount, List.countP_cons]
  rcases e with i | i
  · by_cases hall : ∀ k, Function.update s.ready i true k = true
    · simp only [coordStep, if_pos hall]
      have hrt : readyTickCount
          { s with ready := fun _ => false,
                   ticks := s.ticks ++ [⟨s.envGen, false⟩] }
          = readyTickCount s + 1 := by
        simp [readyTickCount, List.filter_append]
      rw [hrt]
      by_cases hij : i = j
      · subst hij
        rw [hsig, if_pos rfl]
        simp
      · have hj : s.ready j = true := by
          have := hall j
          rwa [Function.update_noteq (Ne.symm hij)] at this
        rw [hj]
        simp
    · simp only [coordStep, if_neg hall]
      have hrt : readyTickCount { s with ready := Function.update s.ready i true }
          = readyTickCount s := by
        simp [readyTickCount]
      rw [hrt]
      by_cases hij : i = j
      · subst hij
        rw [hsig, if_pos rfl, Function.update_same]
        cases h : s.ready i <;> simp
      · rw [Function.update_noteq (Ne.symm hij)]
        omega
  · have hsig0 : signalCount j [CoordEvent.resetCalled i] = 0 := by
      simp [signalCount, List.countP_cons]
    rw [hsig0]
    by_cases hall : ∀ k, Function.update s.resetFlags i true k = true
    · simp only [coordStep, if_pos hall]
      have hrt : readyTickCount
          { s with resetFlags := fun _ => false, envGen := s.envGen + 1,
                   ticks := s.ticks ++ [⟨s.envGen + 1, true⟩] }
          = readyTickCount s := by
        simp [readyTickCount, List.filter_append]
      rw [hrt]
      omega
    · simp only [coordStep, if_neg hall]
      have hrt : readyTickCount
          { s with resetFlags := Function.update s.resetFlags i true }
          = readyTickCount s := by
        simp [readyTickCount]
      rw [hrt]
      omega

/-- Trace-level accounting for ready-path ticks. -/
theorem readyTick_fold_le {n : ℕ} :
    ∀ (t : List (CoordEvent n)) (s : CoordState n) (j : Fin n),
    readyTickCount (t.foldl coordStep s)
        + ((t.foldl coordStep s).ready j).toNat
      ≤ readyTickCount s + (s.ready j).toNat + signalCount j t := by
  intro t
  induction t with
  | nil =>
    intro s j
    simp [signalCount]
  | cons e rest ih =>
    intro s j
    have h1 := ih (coordStep s e) j
    have h2 := readyTick_step_le s e j
    have hsplit : signalCount j (e :: rest)
        = signalCount j rest + signalCount j [e] := by
      simp [signalCount, List.countP_cons]
    simp only [List.foldl_cons]
    omega

/-- C5 counterexample: a trace containing no `ready_for_tick` call at all
(and in which `workers_ready_for_tick` therefore never becomes all-True)
still triggers an `env.tick()` — from inside `reset_called`, on the
freshly created env (generation 2).  This refutes "invokes self.env.tick()
only inside ready_for_tick". -/
theorem c5_counterexample :
    (runCoord 1 [.resetCalled 0]).ticks = [⟨2, true⟩]
    ∧ signalCount (0 : Fin 1) [.resetCalled 0] = 0
    ∧ ∀ j, (runCoord 1 [.resetCalled 0]).ready j = false := by
  refine ⟨by decide, by decide, by decide⟩

/-- C5 (amended): inside `ready_for_tick`, `env.tick()` runs exactly when
all `workers_ready_for_tick` entries become True, immediately after which
every entry is reset to False (and otherwise only worker i's flag is set);
each coordinator call appends at most one tick, never reordering past
ticks (serialization); and the number of ready-path ticks never exceeds
the number of `ready_for_tick` signals of any single worker — between
consecutive ready-path ticks every worker has signaled ready.  However,
`reset_called` is a second `env.tick()` call site (see the
counterexample). -/
theorem c5_tick_serialization :
    (∀ (n : ℕ) (s : CoordState n) (i : Fin n),
      ((∀ j, Function.update s.ready i true j = true) →
        coordStep s (.readyForTick i)
          = { s with ready := fun _ => false,
                     ticks := s.ticks ++ [⟨s.envGen, false⟩] })
      ∧ (¬ (∀ j, Function.update s.ready i true j = true) →
        coordStep s (.readyForTick i)
          = { s with ready := Function.update s.ready i true }))
    ∧ (∀ (n : ℕ) (s : CoordState n) (e : CoordEvent n),
      (coordStep s e).ticks.length ≤ s.ticks.length + 1
      ∧ (coordStep s e).ticks.take s.ticks.length = s.ticks)
    ∧ (∀ (n : ℕ) (t : List (CoordEvent n)) (j : Fin n),
      readyTickCount (runCoord n t) ≤ signalCount j t) := by
  refine ⟨?_, ?_, ?_⟩
  · intro n s i
    constructor
    · intro h
      simp only [coordStep, if_pos h]
    · intro h
      simp only [coordStep, if_neg h]
  · intro n s e
    rcases e with i | i
    · by_cases hall : ∀ k, Function.update s.ready i true k = true
      · simp only [coordStep, if_pos hall]
        constructor
        · simp
        · simpa using List.take_left s.ticks [⟨s.envGen, false⟩]
      · simp only [coordStep, if_neg hall]
        exact ⟨by omega, List.take_length s.ticks⟩
    · by_cases hall : ∀ k, Function.update s.resetFlags i true k = true
      · simp only [coordStep, if_pos hall]
        constructor
        · simp
        · simpa using List.take_left s.ticks [⟨s.envGen + 1, true⟩]
      · simp only [coordStep, if_neg hall]
        exact ⟨by omega, List.take_length s.ticks⟩
  · intro n t j
    have h := readyTick_fold_le t (initCoord n) j
    have hinit : readyTickCount (initCoord n) = 0 := by
      simp [readyTickCount, initCoord]
    have hready : (initCoord n).ready j = false := rfl
    rw [hinit, hready] at h
    simp only [Bool.toNat_false] at h
    simp only [runCoord]
    omega

/-- C5 witness: the amended theorem's firing case applied to the
single-worker coordinator. -/
theorem c5_tick_serialization_witness :
    coordStep (initCoord 1) (.readyForTick 0)
      = { initCoord 1 with ready := fun _ => false, ticks := [⟨1, false⟩] } :=
  (c5_tick_serialization.1 1 (initCoord 1) 0).1 (by decide)

/-- One coordinator step never decreases the env generation, and every
tick it appends runs on the then-current env. -/
theorem coordStep_gen_mono {n : ℕ} (s : CoordState n) (e : CoordEvent n) :
    s.envGen ≤ (coordStep s e).envGen
    ∧ ∀ r ∈ (coordStep s e).ticks, r ∈ s.ticks ∨ s.envGen ≤ r.gen := by
  rcases e with i | i
  · by_cases hall : ∀ k, Function.update s.ready i true k = true
    · simp only [coordStep, if_pos hall]
      refine ⟨le_refl _, ?_⟩
      intro r hr
      rcases List.mem_append.mp hr with h | h
      · exact Or.inl h
      · right
        have : r = ⟨s.envGen, false⟩ := by simpa using h
        rw [this]
    · simp only [coordStep, if_neg hall]
      exact ⟨le_refl _, fun r hr => Or.inl hr⟩
  · by_cases hall : ∀ k, Function.update s.resetFlags i true k = true
    · simp only [coordStep, if_pos hall]
      refine ⟨by omega, ?_⟩
      intro r hr
      rcases List.mem_append.mp hr with h | h
      · exact Or.inl h
      · right
        have : r = ⟨s.envGen + 1, true⟩ := by simpa using h
        rw [this]
        exact Nat.le_succ _
    · simp only [coordStep, if_neg hall]
      exact ⟨le_refl _, fun r hr => Or.inl hr⟩

/-- Trace-level version of `coordStep_gen_mono`. -/
theorem coordFold_gen_mono {n : ℕ} :
    ∀ (t : List (CoordEvent n)) (s : CoordState n),
    s.envGen ≤ (t.foldl coordStep s).envGen
    ∧ ∀ r ∈ (t.foldl coordStep s).ticks, r ∈ s.ticks ∨ s.envGen ≤ r.gen := by
  intro t
  induction t with
  | nil => exact fun s => ⟨le_refl _, fun r hr => Or.inl hr⟩
  | cons e rest ih =>
    intro s
    have hstep := coordStep_gen_mono s e
    have hrest := ih (coordStep s e)
    simp only [List.foldl_cons]
    refine ⟨le_trans hstep.1 hrest.1, ?_⟩
    intro r hr
    rcases hrest.2 r hr with h | h
    · rcases hstep.2 r h with h2 | h2
      · exact Or.inl h2
      · exact Or.inr h2
    · exact Or.inr (le_trans hstep.1 h)

/-- C7: when the last of the `num_envs` workers calls `reset_called`, the
coordinator replaces the rust env with a brand-new one (generation + 1),
ticks the new env exactly once, and clears all reset flags (a partial set
of reset calls only records the flag); moreover the env generation is
monotone along every trace and every tick ever appended afterwards runs
on a generation at least as new — the pre-reset grid instance is never
ticked again. -/
theorem c7_reset_fresh :
    (∀ (n : ℕ) (s : CoordState n) (i : Fin n),
      (∀ j, Function.update s.resetFlags i true j = true) →
        coordStep s (.resetCalled i)
          = { s with resetFlags := fun _ => false, envGen := s.envGen + 1,
                     ticks := s.ticks ++ [⟨s.envGen + 1, true⟩] })
    ∧ (∀ (n : ℕ) (s : CoordState n) (i : Fin n),
      ¬ (∀ j, Function.update s.resetFlags i true j = true) →
        coordStep s (.resetCalled i)
          = { s with resetFlags := Function.update s.resetFlags i true })
    ∧ (∀ (n : ℕ) (s : CoordState n) (t : List (CoordEvent n)),
      s.envGen ≤ (t.foldl coordStep s).envGen
      ∧ ∀ r ∈ (t.foldl coordStep s).ticks, r ∈ s.ticks ∨ s.envGen ≤ r.gen) := by
  refine ⟨?_, ?_, ?_⟩
  · intro n s i h
    simp only [coordStep, if_pos h]
  · intro n s i h
    simp only [coordStep, if_neg h]
  · intro n s t
    exact coordFold_gen_mono t s

/-- C7 witness: the reset step applied to the single-worker coordinator:
fresh env of generation 2, exactly one tick on it, flags cleared. -/
theorem c7_reset_fresh_witness :
    coordStep (initCoord 1) (.resetCalled 0)
      = { initCoord 1 with resetFlags := fun _ => false, envGen := 2,
                           ticks := [⟨2, true⟩] } :=
  c7_reset_fresh.1 1 (initCoord 1) 0 (by decide)

/-- Unfolding the block-level padding loop: it appends exactly the
missing number of null blocks. -/
theorem pad_blocks_eq_aux (nullBlock : List ℚ) (target : ℕ) :
    ∀ (k : ℕ) (acc : List (List ℚ)), target - acc.length = k →
      pad_blocks nullBlock target acc
        = acc ++ List.replicate (target - acc.length) nullBlock := by
  intro k
  induction k with
  | zero =>
    intro acc hk
    rw [pad_blocks, dif_neg (by omega), hk]
    simp
  | succ k ih =>
    intro acc hk
    have hlt : acc.length < target := by omega
    rw [pad_blocks, dif_pos hlt]
    have hk2 : target - (acc ++ [nullBlock]).length = k := by
      simp only [List.length_append, List.length_cons, List.length_nil]
      omega
    rw [ih (acc ++ [nullBlock]) hk2, hk2]
    have hrep : target - acc.length = k + 1 := hk
    rw [hrep]
    simp [List.replicate_succ]

/-- `pad_blocks` in closed form. -/
theorem pad_blocks_eq (nullBlock : List ℚ) (target : ℕ)
    (acc : List (List ℚ)) :
    pad_blocks nullBlock target acc
      = acc ++ List.replicate (target - acc.length) nullBlock :=
  pad_blocks_eq_aux nullBlock target (target - acc.length) acc rfl

/-- Unfolding the flat padding loop when the accumulated length and the
target are multiples of the block length. -/
theorem pad_flat_eq_aux (block : List ℚ) (B : ℕ) (hB : block.length = B)
    (h0 : 0 < B) (m : ℕ) :
    ∀ (k n : ℕ) (acc : List ℚ), m - n = k → acc.length = B * n →
      pad_flat block (B * m) acc
        = acc ++ (List.replicate (m - n) block).flatten := by
  intro k
  induction k with
  | zero =>
    intro n acc hk hl
    have hmn : m ≤ n := by omega
    have hle : B * m ≤ B * n := Nat.mul_le_mul_left B hmn
    have hnot : ¬ (acc.length < B * m ∧ block.length ≠ 0) := by
      rw [hl]
      omega
    rw [pad_flat, dif_neg hnot, hk]
    simp
  | succ k ih =>
    intro n acc hk hl
    have hnm : n < m := by omega
    have hlt : acc.length < B * m := by
      rw [hl]
      exact mul_lt_mul_of_pos_left hnm h0
    rw [pad_flat, dif_pos ⟨hlt, by omega⟩]
    have hl2 : (acc ++ block).length = B * (n + 1) := by
      simp only [List.length_append, hB, hl]
      ring
    rw [ih (n + 1) (acc ++ block) (by omega) hl2]
    have hrep : m - n = (m - (n + 1)) + 1 := by omega
    rw [hrep]
    simp [List.replicate_succ]

/-- `pad_flat` in closed form (block length `B`, target `B * m`,
accumulator of length `B * n`). -/
theorem pad_flat_eq (block : List ℚ) (B : ℕ) (hB : block.length = B)
    (h0 : 0 < B) (m n : ℕ) (acc : List ℚ) (hl : acc.length = B * n) :
    pad_flat block (B * m) acc
      = acc ++ (List.replicate (m - n) block).flatten :=
  pad_flat_eq_aux block B hB h0 m (m - n) n acc rfl hl

/-- Every parsed car-passenger block has 6 entries. -/
theorem car_passenger_block_length (ppc : ℕ) (dist : Coords → Coords → ℕ)
    (car : Car) (p : CarPassenger) :
    (car_passenger_block ppc dist car p).length = 6 := by
  simp [car_passenger_block, parse_coords]

/-- With `passengers_per_car < 6` the flat-length break of
`_parse_car_passengers` never fires, so the loop encodes every passenger
in order. -/
theorem car_passengers_loop_eq (ppc : ℕ) (hppc : ppc < 6)
    (dist : Coords → Coords → ℕ) (car : Car) :
    ∀ (ps : List CarPassenger) (acc : List ℚ),
      car_passengers_loop ppc dist car ps acc
        = acc ++ (ps.map (car_passenger_block ppc dist car)).flatten := by
  intro ps
  induction ps with
  | nil =>
    intro acc
    simp [car_passengers_loop]
  | cons p rest ih =>
    intro acc
    have hne : ¬ ((acc ++ car_passenger_block ppc dist car p).length = ppc) := by
      rw [List.length_append, car_passenger_block_length]
      omega
    simp only [car_passengers_loop, if_neg hne]
    rw [ih]
    simp

/-- The flattened length of a map into constant-length blocks. -/
theorem flatten_map_const_length {α β : Type} (f : α → List β) (c : ℕ)
    (hf : ∀ x, (f x).length = c) :
    ∀ l : List α, ((l.map f).flatten).length = c * l.length := by
  intro l
  induction l with
  | nil => simp
  | cons x rest ih =>
    simp only [List.map_cons, List.flatten_cons, List.length_append, ih, hf,
      List.length_cons]
    ring

/-- `_parse_car_passengers` in closed form: the passengers in order,
padded with null blocks to `car_passenger_slots` blocks. -/
theorem parse_car_passengers_eq (ppc : ℕ) (hppc : ppc < 6)
    (dist : Coords → Coords → ℕ) (car : Car)
    (hn : car.passengers.length ≤ 4) :
    parse_car_passengers ppc dist car
      = (car.passengers.map (car_passenger_block ppc dist car)).flatten
        ++ (List.replicate (4 - car.passengers.length) null_passenger).flatten := by
  unfold parse_car_passengers
  rw [car_passengers_loop_eq ppc hppc dist car car.passengers []]
  have htarget : car_passenger_slots * null_passenger.length = 6 * 4 := rfl
  have hlen : ((car.passengers.map (car_passenger_block ppc dist car)).flatten).length
      = 6 * car.passengers.length :=
    flatten_map_const_length _ 6 (car_passenger_block_length ppc dist car) _
  rw [List.nil_append, htarget,
    pad_flat_eq null_passenger 6 rfl (by omega) 4 car.passengers.length _ hlen]

/-- The idle-passenger loop in closed form: it encodes the first
`passenger_radius` passengers (block-level accumulator). -/
theorem idle_passengers_loop_eq (dist : Coords → Coords → ℕ)
    (pov_pos : Coords) :
    ∀ (ps : List IdlePassenger) (acc : List (List ℚ)),
      acc.length < passenger_radius →
      idle_passengers_loop dist pov_pos ps acc
        = acc ++ (ps.take (passenger_radius - acc.length)).map
            (idle_passenger_block dist pov_pos) := by
  intro ps
  induction ps with
  | nil =>
    intro acc hacc
    simp [idle_passengers_loop]
  | cons p rest ih =>
    intro acc hacc
    by_cases hbreak : (acc ++ [idle_passenger_block dist pov_pos p]).length
        = passenger_radius
    · simp only [idle_passengers_loop, if_pos hbreak]
      simp only [List.length_append, List.length_cons, List.length_nil] at hbreak
      have : passenger_radius - acc.length = 1 := by omega
      rw [this]
      simp
    · simp only [idle_passengers_loop, if_neg hbreak]
      simp only [List.length_append, List.length_cons, List.length_nil] at hbreak
      have hlt : (acc ++ [idle_passenger_block dist pov_pos p]).length
          < passenger_radius := by
        simp only [List.length_append, List.length_cons, List.length_nil]
        omega
      rw [ih _ hlt]
      simp only [List.length_append, List.length_cons, List.length_nil,
        List.append_assoc, List.cons_append, List.nil_append]
      have : passenger_radius - acc.length
          = (passenger_radius - (acc.length + 1)) + 1 := by omega
      rw [this, List.take_succ_cons, List.map_cons]

/-- `_parse_idle_passengers` in closed form. -/
theorem parse_idle_passengers_eq (dist : Coords → Coords → ℕ)
    (idle : List IdlePassenger) (pov_car : Car) :
    parse_idle_passengers dist idle pov_car
      = ((idle.take passenger_radius).map
          (idle_passenger_block dist pov_car.pos)
        ++ List.replicate (passenger_radius - min idle.length passenger_radius)
          null_idle_passenger).flatten := by
  unfold parse_idle_passengers
  rw [idle_passengers_loop_eq dist pov_car.pos idle [] (by simp [passenger_radius])]
  simp only [List.nil_append, List.length_nil, Nat.sub_zero]
  rw [pad_blocks_eq]
  have hlen : ((idle.take passenger_radius).map
      (idle_passenger_block dist pov_car.pos)).length
      = min passenger_radius idle.length := by
    simp [List.length_take]
  rw [hlen, Nat.min_comm]

/-- `_parse_cars` ignores its input: the parameter is shadowed by
`cars = []` before the loop, so the result is always `car_radius` null-car
blocks (87 zeros). -/
theorem parse_cars_eq (ppc : ℕ) (dist : Coords → Coords → ℕ)
    (cars : List Car) :
    parse_cars ppc dist cars = List.replicate 87 0 := by
  have hbody : parse_cars ppc dist cars
      = (pad_blocks null_car car_radius
          (parse_cars_loop ppc dist ([] : List Car) [])).flatten := rfl
  have hloop : parse_cars_loop ppc dist ([] : List Car) [] = [] := rfl
  rw [hbody, hloop, pad_blocks_eq]
  simp only [List.nil_append, List.length_nil, Nat.sub_zero]
  decide

/-- C3: the idle-passenger half of the claim holds — for every input,
`_parse_idle_passengers` encodes the first
`min(len(idle_passengers), passenger_radius)` passengers in order and
pads with null blocks to exactly `passenger_radius` blocks.  The car half
fails: `_parse_cars` shadows its parameter with `cars = []` before the
loop, so for EVERY input — in particular for a nonempty list of
agent-type cars, whose first block the claim requires to be encoded — it
returns `car_radius` null-car blocks (87 zeros). -/
theorem c3_windowing :
    (∀ (dist : Coords → Coords → ℕ) (idle : List IdlePassenger)
        (pov_car : Car),
      parse_idle_passengers dist idle pov_car
        = ((idle.take passenger_radius).map
            (idle_passenger_block dist pov_car.pos)
          ++ List.replicate
            (passenger_radius - min idle.length passenger_radius)
            null_idle_passenger).flatten
      ∧ ((idle.take passenger_radius).map
            (idle_passenger_block dist pov_car.pos)
          ++ List.replicate
            (passenger_radius - min idle.length passenger_radius)
            null_idle_passenger).length = passenger_radius)
    ∧ (∀ (ppc : ℕ) (dist : Coords → Coords → ℕ) (cars : List Car),
        parse_cars ppc dist cars = List.replicate 87 0)
    ∧ parse_cars 4 (fun _ _ => 1) [egCar]
        = parse_cars 4 (fun _ _ => 1) [] := by
  refine ⟨?_, ?_, ?_⟩
  · intro dist idle pov_car
    refine ⟨parse_idle_passengers_eq dist idle pov_car, ?_⟩
    simp only [List.length_append, List.length_map, List.length_take,
      List.length_replicate]
    omega
  · intro ppc dist cars
    exact parse_cars_eq ppc dist cars
  · rw [parse_cars_eq, parse_cars_eq]

/-- `set_true_range` preserves length. -/
theorem set_true_range_length (m : List Bool) (lo cnt : ℕ) :
    (set_true_range m lo cnt).length = m.length := by
  simp [set_true_range]

/-- The mask starts with `action_count = 14` entries. -/
theorem mask_false_length : mask_false.length = 14 := rfl

/-- Entry `i` of `set_true_range`. -/
theorem get_set_true_range (m : List Bool) (lo cnt i : ℕ) (h : i < m.length)
    (h2 : i < (set_true_range m lo cnt).length) :
    (set_true_range m lo cnt).get ⟨i, h2⟩
      = if lo ≤ i ∧ i < lo + cnt then true else m.get ⟨i, h⟩ := by
  simp only [set_true_range]
  rw [List.get_mapIdx m _ i h]

/-- A list with a true entry satisfies `any id`. -/
theorem any_of_get {m : List Bool} {i : ℕ} (h : i < m.length)
    (hv : m.get ⟨i, h⟩ = true) : m.any id = true := by
  rw [List.any_eq_true]
  refine ⟨true, ?_, rfl⟩
  rw [← hv]
  exact List.get_mem m i h

/-- Setting an entry to true makes `any id` hold. -/
theorem any_set_true (m : List Bool) (i : ℕ) (h : i < m.length) :
    (m.set i true).any id = true := by
  refine any_of_get (i := i) (by rw [List.length_set]; exact h) ?_
  simp [List.get_eq_getElem, List.getElem_set]

/-- Length bookkeeping for the mask pipeline. -/
theorem mask_dropoffs_length (s : GridState) :
    (mask_dropoffs s).length = 14 := by
  rw [mask_dropoffs, set_true_range_length, mask_false_length]

theorem mask_pickups_length (ppc : ℕ) (s : GridState) :
    (mask_pickups ppc s).length = 14 := by
  rw [mask_pickups]
  split
  · rw [set_true_range_length, mask_dropoffs_length]
  · exact mask_dropoffs_length s

theorem mask_head_length (ppc : ℕ) (s : GridState) :
    (mask_head ppc s).length = 14 := by
  rw [mask_head]
  split
  · exact mask_pickups_length ppc s
  · rw [set_true_range_length, mask_pickups_length]

theorem mask_battery_length (ppc : ℕ) (s : GridState) :
    (mask_battery ppc s).length = 14 := by
  rw [mask_battery]
  split
  · split
    · rw [List.length_set, mask_false_length]
    · exact mask_head_length ppc s
  · split
    · rw [List.length_set, mask_head_length]
    · exact mask_head_length ppc s

/-- After the head-towards block some entry is always true. -/
theorem mask_head_any (ppc : ℕ) (s : GridState) :
    (mask_head ppc s).any id = true := by
  rw [mask_head]
  by_cases h : (mask_pickups ppc s).any id = true
  · rw [if_pos h]
    exact h
  · rw [if_neg h]
    have h10 : (10 : ℕ) < (mask_pickups ppc s).length := by
      rw [mask_pickups_length]
      omega
    refine any_of_get (i := 10)
      (by rw [set_true_range_length]; exact h10) ?_
    rw [get_set_true_range _ _ _ _ h10]
    simp

/-- The base path always leaves at least one valid action. -/
theorem action_mask_base_any (ppc : ℕ) (s : GridState) :
    (action_mask_base ppc s).any id = true := by
  rw [action_mask_base]
  by_cases hb : s.pov_car.battery < 98 / 100
  · rw [if_pos hb]
    exact any_set_true _ 9 (by rw [mask_battery_length]; omega)
  · rw [if_neg hb, mask_battery]
    by_cases hin : s.pov_car.in_charging_station
    · rw [if_pos hin, if_neg hb]
      exact mask_head_any ppc s
    · rw [if_neg hin, if_neg hb]
      exact mask_head_any ppc s

/-- No stored `active_action` matches an action index: either no action is
in flight, or the matching loop (with its `except AssertionError` skips)
finds no index. -/
def no_active_match (ppc : ℕ) (s : GridState) : Prop :=
  ∀ a, s.pov_car.active_action = some a → active_match_idx ppc s a = none

/-- Without a matching active action, `action_mask` takes the base
path. -/
theorem action_mask_of_no_match (ppc : ℕ) (s : GridState)
    (h : no_active_match ppc s) :
    action_mask ppc s = action_mask_base ppc s := by
  cases hact : s.pov_car.active_action with
  | none => simp [action_mask, hact]
  | some a => simp [action_mask, hact, h a hact]

/-- A car with an in-flight head-towards action (raw index 10) and a
half-full battery. -/
def c9Car : Car :=
  ⟨⟨.Right, 0, 0⟩, false, 1 / 2, [], .Agent, [], some (.head_towards .Up (some 10)), 0⟩

/-- The snapshot seen by `action_mask` for `c9Car`. -/
def c9State : GridState := ⟨c9Car, [], [], [], ⟨0, 0, 0⟩, 1, 0, true⟩

/-- C9 counterexample: with battery 0.5 < 0.98 but a stored active action
matching index 10, the mask has exactly that index set and the
charge-battery entry (index 9) is False — refuting part (ii) of the
claim as stated. -/
theorem c9_counterexample :
    (action_mask 4 c9State)[9]? = some false
    ∧ c9State.pov_car.battery < 98 / 100
    ∧ (action_mask 4 c9State)[10]? = some true := by
  refine ⟨by decide, by norm_num [c9State, c9Car], by decide⟩

/-- C9 (amended): `action_mask` returns a vector of length
`action_count` with (i) at least one True entry for every state; and when
no stored active action matches an action index, (ii) battery < 0.98
forces the charge-battery entry (index `car_passenger_slots +
passenger_radius` = 9) to True, and (iii) battery < 0.98 while parked in
a charging station makes the charge entry the only True entry.  Without
the no-matching-active-action condition, (ii) fails (see the
counterexample). -/
theorem c9_mask_properties :
    (∀ (ppc : ℕ) (s : GridState),
      (action_mask ppc s).length = action_count
      ∧ (action_mask ppc s).any id = true)
    ∧ (∀ (ppc : ℕ) (s : GridState), no_active_match ppc s →
        s.pov_car.battery < 98 / 100 →
        (action_mask ppc s)[9]? = some true)
    ∧ (∀ (ppc : ℕ) (s : GridState), no_active_match ppc s →
        s.pov_car.battery < 98 / 100 →
        s.pov_car.in_charging_station = true →
        action_mask ppc s = mask_false.set 9 true) := by
  have hbase_len : ∀ (ppc : ℕ) (s : GridState),
      (action_mask_base ppc s).length = 14 := by
    intro ppc s
    rw [action_mask_base]
    split
    · rw [List.length_set, mask_battery_length]
    · exact mask_battery_length ppc s
  refine ⟨?_, ?_, ?_⟩
  · intro ppc s
    have hcount : action_count = 14 := rfl
    rw [hcount]
    cases hact : s.pov_car.active_action with
    | none =>
      simp only [action_mask, hact]
      exact ⟨hbase_len ppc s, action_mask_base_any ppc s⟩
    | some a =>
      cases hidx : active_match_idx ppc s a with
      | none =>
        simp only [action_mask, hact, hidx]
        exact ⟨hbase_len ppc s, action_mask_base_any ppc s⟩
      | some idx =>
        simp only [action_mask, hact, hidx]
        have hmem : idx ∈ List.range action_count :=
          List.mem_of_find?_eq_some hidx
        have hlt : idx < 14 := by
          have := List.mem_range.mp hmem
          simpa [action_count, car_passenger_slots, passenger_radius]
            using this
        constructor
        · rw [List.length_set, mask_false_length]
        · exact any_set_true _ idx (by rw [mask_false_length]; exact hlt)
  · intro ppc s hmatch hb
    rw [action_mask_of_no_match ppc s hmatch, action_mask_base, if_pos hb]
    exact List.getElem?_set_eq_of_lt true (by rw [mask_battery_length]; omega)
  · intro ppc s hmatch hb hin
    rw [action_mask_of_no_match ppc s hmatch, action_mask_base, if_pos hb,
      mask_battery, if_pos hin, if_pos hb, List.set_set]

/-- A car parked in a charging station with an empty battery and no
in-flight action. -/
def c9wCar : Car := ⟨⟨.Right, 0, 0⟩, true, 0, [], .Agent, [], none, 0⟩

/-- The snapshot seen by `action_mask` for `c9wCar`. -/
def c9wState : GridState := ⟨c9wCar, [], [], [], ⟨0, 0, 0⟩, 1, 0, true⟩

/-- C9 witness: the amended theorem's forced-charge case on a concrete
state. -/
theorem c9_mask_properties_witness :
    action_mask 4 c9wState = mask_false.set 9 true :=
  c9_mask_properties.2.2 4 c9wState (fun a h => nomatch h)
    (by norm_num [c9wState, c9wCar]) rfl

/-- Entries of a flattened list of pairs. -/
theorem flatten_pairs_getElem {α : Type} (f g : α → ℕ) :
    ∀ (l : List α) (i : ℕ) (p : α), l[i]? = some p →
      ((l.map (fun x => [f x, g x])).flatten)[2 * i]? = some (f p)
      ∧ ((l.map (fun x => [f x, g x])).flatten)[2 * i + 1]? = some (g p) := by
  intro l
  induction l with
  | nil =>
    intro i p h
    simp at h
  | cons x rest ih =>
    intro i p h
    cases i with
    | zero =>
      simp only [List.getElem?_cons_zero, Option.some_inj] at h
      subst h
      simp
    | succ i =>
      simp only [List.getElem?_cons_succ] at h
      have hrec := ih i p h
      have h2 : 2 * (i + 1) = 2 * i + 1 + 1 := by omega
      simp only [List.map_cons, List.flatten_cons, List.cons_append,
        List.nil_append, h2, List.getElem?_cons_succ]
      exact hrec

/-- C10 counterexample: with `passenger_radius = 0` the truncated list is
always empty, so `format_state` reports terminal even though a passenger
is still waiting. -/
def c10Passenger : MPassenger ℕ := ⟨0, 1⟩

/-- A concrete rust car whose distance oracles are constant. -/
def c10Car : MCar ℕ := ⟨fun _ => 0, fun _ _ => 5⟩

/-- A grid with exactly one waiting passenger. -/
def c10Grid : MGridState ℕ := ⟨[c10Passenger]⟩

/-- C10 counterexample theorem: `format_state` with `passenger_radius = 0`
flags terminal although `waiting_passengers` is nonempty. -/
theorem c10_counterexample :
    (format_state 0 c10Car c10Grid).terminal = true
    ∧ c10Grid.waiting_passengers ≠ [] := by
  constructor
  · simp [format_state]
  · simp [c10Grid]

/-- C10 (amended, requiring `0 < passenger_radius` for the terminal
biconditional): `format_state` returns a tensor of length
`2 * passenger_radius`; the encoded passengers are the sorted waiting
passengers (a permutation of `waiting_passengers`, pairwise ascending in
`car.distance(p.start)`) truncated to `passenger_radius`; entry `2i` is
the distance from the car to the i-th nearest passenger's start and entry
`2i+1` the distance from that passenger's start to its destination; all
remaining entries are 0; and for positive `passenger_radius` the terminal
flag holds iff `waiting_passengers` is empty (with `passenger_radius = 0`
it is always set — see the counterexample). -/
theorem c10_format_state_spec {Pos : Type} (r : ℕ) (car : MCar Pos)
    (gs : MGridState Pos) :
    (format_state r car gs).tensor.length = 2 * r
    ∧ (sorted_waiting car gs).Perm gs.waiting_passengers
    ∧ List.Pairwise
        (fun p q => car.distance p.start ≤ car.distance q.start)
        ((sorted_waiting car gs).take r)
    ∧ (∀ (i : ℕ) (p : MPassenger Pos),
        ((sorted_waiting car gs).take r)[i]? = some p →
        (format_state r car gs).tensor[2 * i]? = some (car.distance p.start)
        ∧ (format_state r car gs).tensor[2 * i + 1]?
            = some (car.distance_from p.start p.destination))
    ∧ (∀ i : ℕ, 2 * ((sorted_waiting car gs).take r).length ≤ i → i < 2 * r →
        (format_state r car gs).tensor[i]? = some 0)
    ∧ (0 < r →
        ((format_state r car gs).terminal = true
          ↔ gs.waiting_passengers = [])) := by
  have hflatlen : ∀ l : List (MPassenger Pos),
      ((l.map (fun p =>
        [car.distance p.start, car.distance_from p.start p.destination])).flatten).length
        = 2 * l.length := by
    intro l
    exact flatten_map_const_length
      (fun p => [car.distance p.start, car.distance_from p.start p.destination])
      2 (fun p => rfl) l
  have htake_le : ((sorted_waiting car gs).take r).length ≤ r := by
    rw [List.length_take]
    omega
  have htensor : (format_state r car gs).tensor
      = (((sorted_waiting car gs).take r).map (fun p =>
          [car.distance p.start, car.distance_from p.start p.destination])).flatten
        ++ List.replicate (2 * r - 2 * ((sorted_waiting car gs).take r).length) 0 :=
    rfl
  refine ⟨?_, ?_, ?_, ?_, ?_, ?_⟩
  · rw [htensor]
    rw [List.length_append, hflatlen, List.length_replicate]
    omega
  · exact List.mergeSort_perm _ _
  · have hsorted := @List.sorted_mergeSort _ (mdistLE car)
      (fun a b c hab hbc => by
        simp only [mdistLE, decide_eq_true_eq] at hab hbc ⊢
        omega)
      (fun a b => by
        simp only [mdistLE, Bool.or_eq_true, decide_eq_true_eq]
        omega)
      gs.waiting_passengers
    have := List.Pairwise.sublist (List.take_sublist r _) hsorted
    refine this.imp ?_
    intro p q h
    simpa [mdistLE] using h
  · intro i p hip
    have hi : i < ((sorted_waiting car gs).take r).length := by
      by_contra hge
      rw [List.getElem?_eq_none (by omega)] at hip
      exact Option.noConfusion hip
    have hpair := flatten_pairs_getElem
      (fun p => car.distance p.start)
      (fun p => car.distance_from p.start p.destination)
      ((sorted_waiting car gs).take r) i p hip
    rw [htensor]
    constructor
    · rw [List.getElem?_append, if_pos (by rw [hflatlen]; omega)]
      exact hpair.1
    · rw [List.getElem?_append, if_pos (by rw [hflatlen]; omega)]
      exact hpair.2
  · intro i hlo hhi
    rw [htensor]
    rw [List.getElem?_append, if_neg (by rw [hflatlen]; omega)]
    rw [hflatlen, List.getElem?_replicate]
    rw [if_pos (by omega)]
  · intro hr
    have hterm : (format_state r car gs).terminal
        = decide (((sorted_waiting car gs).take r).length = 0) := rfl
    rw [hterm, decide_eq_true_eq]
    have hperm := List.mergeSort_perm gs.waiting_passengers (mdistLE car)
    have hswlen : (sorted_waiting car gs).length
        = gs.waiting_passengers.length := hperm.length_eq
    constructor
    · intro h
      rw [List.length_take] at h
      have : gs.waiting_passengers.length = 0 := by omega
      exact List.length_eq_zero.mp this
    · intro h
      rw [List.length_take]
      have : gs.waiting_passengers.length = 0 := by rw [h]; rfl
      omega

/-- C10 witness: the terminal biconditional applied at `passenger_radius
= 1` on the concrete one-passenger grid. -/
theorem c10_format_state_spec_witness :
    (format_state 1 c10Car c10Grid).terminal = true
      ↔ c10Grid.waiting_passengers = [] :=
  (c10_format_state_spec 1 c10Car c10Grid).2.2.2.2.2 (by norm_num)

/-- A natural below the size fits the `Box` interval. -/
theorem inBound_cast {m n : ℕ} (h : m < n) : inBound (m : ℚ) n := by
  constructor
  · exact Nat.cast_nonneg m
  · have h1 : (m : ℚ) + 1 ≤ n := by exact_mod_cast Nat.succ_le_of_lt h
    linarith

/-- Zero fits every nonempty `Box` interval. -/
theorem inBound_zero {n : ℕ} (h : 1 ≤ n) : inBound 0 n := by
  constructor
  · exact le_refl 0
  · have h1 : (1 : ℚ) ≤ n := by exact_mod_cast h
    linarith

/-- A 0/1 indicator fits a size-2 interval. -/
theorem inBound_bool01 (b : Bool) : inBound (if b then (1 : ℚ) else 0) 2 := by
  cases b
  · simpa using inBound_zero (n := 2) (by omega)
  · constructor
    · norm_num
    · norm_num

/-- `Forall₂` respects append. -/
theorem forall2_append {α β : Type} {R : α → β → Prop}
    {l₁ l₃ : List α} {l₂ l₄ : List β} (h1 : List.Forall₂ R l₁ l₂)
    (h2 : List.Forall₂ R l₃ l₄) : List.Forall₂ R (l₁ ++ l₃) (l₂ ++ l₄) :=
  List.rel_append h1 h2

/-- `Forall₂` descends through `flatten`. -/
theorem forall2_flatten {α β : Type} {R : α → β → Prop} :
    ∀ {xss : List (List α)} {yss : List (List β)},
      List.Forall₂ (List.Forall₂ R) xss yss →
      List.Forall₂ R xss.flatten yss.flatten := by
  intro xss yss h
  induction h with
  | nil => exact List.Forall₂.nil
  | cons hxy _ ih =>
    simp only [List.flatten_cons]
    exact forall2_append hxy ih

/-- `Forall₂` between two replicates of related blocks. -/
theorem forall2_replicate {α β : Type} {R : α → β → Prop} {x : α} {y : β}
    (h : R x y) (k : ℕ) :
    List.Forall₂ R (List.replicate k x) (List.replicate k y) := by
  induction k with
  | zero => exact List.Forall₂.nil
  | succ k ih =>
    simp only [List.replicate_succ]
    exact List.Forall₂.cons h ih

/-- Mapping each element to a block related to one fixed block. -/
theorem forall2_map_replicate {α β γ : Type} {R : α → β → Prop} {f : γ → α}
    {b : β} : ∀ (l : List γ), (∀ x ∈ l, R (f x) b) →
    List.Forall₂ R (l.map f) (List.replicate l.length b) := by
  intro l
  induction l with
  | nil =>
    intro _
    exact List.Forall₂.nil
  | cons x rest ih =>
    intro h
    simp only [List.map_cons, List.length_cons, List.replicate_succ]
    exact List.Forall₂.cons (h x (by simp))
      (ih (fun y hy => h y (by simp [hy])))

/-- A list of zeros fits any space whose sizes are all positive. -/
theorem forall2_zeros : ∀ {spaces : List ℕ}, (∀ n ∈ spaces, 1 ≤ n) →
    List.Forall₂ inBound (List.replicate spaces.length (0 : ℚ)) spaces := by
  intro spaces
  induction spaces with
  | nil =>
    intro _
    exact List.Forall₂.nil
  | cons n rest ih =>
    intro h
    simp only [List.length_cons, List.replicate_succ]
    exact List.Forall₂.cons (inBound_zero (h n (by simp)))
      (ih (fun m hm => h m (by simp [hm])))

/-- `_parse_coords` output fits `coords_ospc` whenever the position is on
the grid. -/
theorem parse_coords_bound (dist : Coords → Coords → ℕ) (c pov : Coords)
    (h : xyValid c) :
    List.Forall₂ inBound (parse_coords dist c pov) coords_ospc := by
  obtain ⟨hx, hy⟩ := h
  unfold parse_coords coords_ospc
  refine List.Forall₂.cons (inBound_cast hx)
    (List.Forall₂.cons (inBound_cast hy)
      (List.Forall₂.cons ?_ List.Forall₂.nil))
  exact inBound_cast (show min (dist c pov) 100 < 100 + 1 by omega)

/-- The null passenger block fits `car_passenger_ospc`. -/
theorem null_passenger_bound :
    List.Forall₂ inBound null_passenger car_passenger_ospc := by
  have h : null_passenger = List.replicate car_passenger_ospc.length 0 := rfl
  rw [h]
  exact forall2_zeros (by decide)

/-- A parsed car-passenger block fits `car_passenger_ospc`. -/
theorem car_passenger_block_bound (ppc : ℕ) (dist : Coords → Coords → ℕ)
    (car : Car) (p : CarPassenger) (hdest : xyValid p.destination) :
    List.Forall₂ inBound (car_passenger_block ppc dist car p)
      car_passenger_ospc := by
  unfold car_passenger_block car_passenger_ospc
  refine forall2_append
    (forall2_append ?_ (parse_coords_bound dist _ _ hdest)) ?_
  · exact List.Forall₂.cons (inBound_bool01 _) List.Forall₂.nil
  · refine List.Forall₂.cons
      (inBound_cast (show min p.distance_to_destination 100 < 100 + 1 by omega))
      (List.Forall₂.cons
        (inBound_cast (show min p.ticks_since_request 300 < 300 + 1 by omega))
        List.Forall₂.nil)

/-- `_parse_car_passengers` output fits `car_passengers_ospc`. -/
theorem parse_car_passengers_bound (ppc : ℕ) (dist : Coords → Coords → ℕ)
    (car : Car) (hppc : ppc ≤ 4) (hn : car.passengers.length ≤ ppc)
    (hdest : ∀ p ∈ car.passengers, xyValid p.destination) :
    List.Forall₂ inBound (parse_car_passengers ppc dist car)
      car_passengers_ospc := by
  rw [parse_car_passengers_eq ppc (by omega) dist car (by omega)]
  have hsplit : car_passengers_ospc
      = (List.replicate car.passengers.length car_passenger_ospc).flatten
        ++ (List.replicate (4 - car.passengers.length)
            car_passenger_ospc).flatten := by
    rw [← List.flatten_append, ← List.replicate_add]
    have h4 : car.passengers.length + (4 - car.passengers.length) = 4 := by
      omega
    rw [h4]
    rfl
  rw [hsplit]
  refine forall2_append (forall2_flatten ?_) (forall2_flatten ?_)
  · exact forall2_map_replicate car.passengers
      (fun p hp => car_passenger_block_bound ppc dist car p (hdest p hp))
  · exact forall2_replicate null_passenger_bound _

/-- `_parse_car` output fits `car_ospc`. -/
theorem parse_car_bound (ppc : ℕ) (dist : Coords → Coords → ℕ) (car : Car)
    (hppc : ppc ≤ 4) (hn : car.passengers.length ≤ ppc)
    (hpos : xyValid car.pos) (hb0 : 0 ≤ car.battery) (hb1 : car.battery ≤ 1)
    (hdest : ∀ p ∈ car.passengers, xyValid p.destination) :
    List.Forall₂ inBound (parse_car ppc dist car) car_ospc := by
  unfold parse_car car_ospc
  simp only [List.append_assoc, List.cons_append, List.nil_append]
  refine forall2_append (parse_coords_bound dist _ _ hpos) ?_
  refine List.Forall₂.cons (inBound_bool01 _) (List.Forall₂.cons ?_ ?_)
  · constructor
    · exact le_max_right _ _
    · have h100 : car.battery * 100 ≤ 100 := by nlinarith
      have : max (car.battery * 100) 0 ≤ 100 := max_le h100 (by norm_num)
      have hq : ((100 + 1 : ℕ) : ℚ) - 1 = 100 := by norm_num
      rw [hq]
      exact this
  · exact parse_car_passengers_bound ppc dist car hppc hn hdest

/-- `_parse_cars` output (always 87 zeros) fits `cars_ospc`. -/
theorem parse_cars_bound (ppc : ℕ) (dist : Coords → Coords → ℕ)
    (cars : List Car) :
    List.Forall₂ inBound (parse_cars ppc dist cars) cars_ospc := by
  rw [parse_cars_eq]
  have h : (List.replicate 87 (0 : ℚ))
      = List.replicate cars_ospc.length 0 := rfl
  rw [h]
  exact forall2_zeros (by decide)

/-- The null idle-passenger block fits `idle_passenger_ospc`. -/
theorem null_idle_passenger_bound :
    List.Forall₂ inBound null_idle_passenger idle_passenger_ospc := by
  have h : null_idle_passenger
      = List.replicate idle_passenger_ospc.length 0 := rfl
  rw [h]
  exact forall2_zeros (by decide)

/-- A parsed idle-passenger block fits `idle_passenger_ospc`. -/
theorem idle_passenger_block_bound (dist : Coords → Coords → ℕ)
    (pov_pos : Coords) (p : IdlePassenger) (hpos : xyValid p.pos)
    (hdest : xyValid p.destination) :
    List.Forall₂ inBound (idle_passenger_block dist pov_pos p)
      idle_passenger_ospc := by
  unfold idle_passenger_block idle_passenger_ospc
  refine forall2_append
    (forall2_append
      (forall2_append ?_ (parse_coords_bound dist _ _ hpos))
      (parse_coords_bound dist _ _ hdest)) ?_
  · exact List.Forall₂.cons (by simpa using inBound_cast (show 1 < 2 by omega))
      List.Forall₂.nil
  · refine List.Forall₂.cons
      (inBound_cast (show min p.distance_to_destination 100 < 100 + 1 by omega))
      (List.Forall₂.cons
        (inBound_cast (show min p.ticks_since_request 300 < 300 + 1 by omega))
        List.Forall₂.nil)

/-- `_parse_idle_passengers` output fits `idle_passengers_ospc`. -/
theorem parse_idle_passengers_bound (dist : Coords → Coords → ℕ)
    (idle : List IdlePassenger) (pov_car : Car)
    (h : ∀ p ∈ idle, xyValid p.pos ∧ xyValid p.destination) :
    List.Forall₂ inBound (parse_idle_passengers dist idle pov_car)
      idle_passengers_ospc := by
  rw [parse_idle_passengers_eq]
  rw [List.flatten_append]
  have hlen : ((idle.take passenger_radius).map
      (idle_passenger_block dist pov_car.pos)).length
      = (idle.take passenger_radius).length := List.length_map _ _
  have htail : passenger_radius - min idle.length passenger_radius
      = passenger_radius - (idle.take passenger_radius).length := by
    rw [List.length_take]
    omega
  have hsplit : idle_passengers_ospc
      = (List.replicate (idle.take passenger_radius).length
          idle_passenger_ospc).flatten
        ++ (List.replicate
            (passenger_radius - (idle.take passenger_radius).length)
            idle_passenger_ospc).flatten := by
    rw [← List.flatten_append, ← List.replicate_add]
    have hle : (idle.take passenger_radius).length ≤ passenger_radius := by
      rw [List.length_take]
      omega
    have hsum : (idle.take passenger_radius).length
        + (passenger_radius - (idle.take passenger_radius).length)
        = passenger_radius := by omega
    rw [hsum]
    rfl
  rw [htail, hsplit]
  refine forall2_append (forall2_flatten ?_) (forall2_flatten ?_)
  · exact forall2_map_replicate (idle.take passenger_radius)
      (fun p hp =>
        idle_passenger_block_bound dist pov_car.pos p
          (h p (List.mem_of_mem_take hp)).1
          (h p (List.mem_of_mem_take hp)).2)
  · exact forall2_replicate null_idle_passenger_bound _

/-- A parsed charging-station block fits `charging_station_ospc`. -/
theorem parse_charging_station_bound (dist : Coords → Coords → ℕ)
    (cs : ChargingStation) (pov_car : Car) (hpos : xyValid cs.pos)
    (hb : ∀ c ∈ cs.cars, 0 ≤ c.battery ∧ c.battery ≤ 1) :
    List.Forall₂ inBound (parse_charging_station dist cs pov_car)
      charging_station_ospc := by
  unfold parse_charging_station charging_station_ospc
  refine forall2_append (parse_coords_bound dist _ _ hpos) ?_
  split
  · rename_i h4
    have hmem : cs.cars.get ⟨0, by omega⟩ ∈ cs.cars := List.get_mem _ _ _
    obtain ⟨hc0, hc1⟩ := hb _ hmem
    refine List.Forall₂.cons (by simpa using inBound_cast (show 1 < 2 by omega))
      (List.Forall₂.cons ?_ List.Forall₂.nil)
    constructor
    · exact le_max_right _ _
    · have : max (cs.cars.get ⟨0, by omega⟩).battery 0 ≤ 1 :=
        max_le hc1 (by norm_num)
      have hq : ((2 : ℕ) : ℚ) - 1 = 1 := by norm_num
      rw [hq]
      exact this
  · exact List.Forall₂.cons (inBound_zero (by omega))
      (List.Forall₂.cons (inBound_zero (by omega)) List.Forall₂.nil)

/-- `_parse_charging_stations` output fits `charging_stations_ospc` when
the configuration's 4 stations are present. -/
theorem parse_charging_stations_bound (dist : Coords → Coords → ℕ)
    (s : GridState) (hlen : s.charging_stations.length = 4)
    (h : ∀ cs ∈ s.charging_stations,
      xyValid cs.pos ∧ ∀ c ∈ cs.cars, 0 ≤ c.battery ∧ c.battery ≤ 1) :
    List.Forall₂ inBound (parse_charging_stations dist s)
      charging_stations_ospc := by
  unfold parse_charging_stations
  have htake : s.charging_stations.take charging_station_count
      = s.charging_stations :=
    List.take_of_length_le (by rw [hlen]; rfl)
  rw [htake]
  have hrep : charging_stations_ospc
      = (List.replicate s.charging_stations.length
          charging_station_ospc).flatten := by
    rw [hlen]
    rfl
  rw [hrep]
  refine forall2_flatten ?_
  exact forall2_map_replicate s.charging_stations
    (fun cs hcs => parse_charging_station_bound dist cs s.pov_car
      (h cs hcs).1 (h cs hcs).2)

set_option maxRecDepth 4000 in
/-- C8: under the data-model invariants (grid positions on the 15 × 10
grid, batteries in [0, 1], at most `passengers_per_car ≤ 4` passengers,
the configuration's 4 charging stations; distances and tick counters are
naturals, hence nonnegative), every entry of `parse_observation` lies in
the `Box` interval `[0, size - 1]` of `_observation_space`, and the
vector has exactly the space's dimension (184) — so the final
`assert self._observation_space.contains(obs)` never fails. -/
theorem c8_observation_in_space (ppc : ℕ) (dist : Coords → Coords → ℕ)
    (s : GridState) (h : WF ppc s) :
    List.Forall₂ inBound (parse_observation ppc dist s) all_spaces
    ∧ (parse_observation ppc dist s).length = all_spaces.length
    ∧ all_spaces.length = 184 := by
  obtain ⟨hppc, hpos, hb0, hb1, hpass, hdest, hidle, hcslen, hcs⟩ := h
  have hmain : List.Forall₂ inBound (parse_observation ppc dist s)
      all_spaces := by
    unfold parse_observation all_spaces
    simp only [List.append_assoc, List.cons_append, List.nil_append]
    refine List.Forall₂.cons (inBound_bool01 _) ?_
    refine List.Forall₂.cons
      (inBound_cast (show min s.total_passenger_count 49 < 50 by omega)) ?_
    refine forall2_append
      (parse_car_bound ppc dist s.pov_car hppc hpass hpos hb0 hb1 hdest) ?_
    refine forall2_append (parse_cars_bound ppc dist s.other_cars) ?_
    refine forall2_append
      (parse_idle_passengers_bound dist s.idle_passengers s.pov_car hidle) ?_
    refine forall2_append
      (parse_charging_stations_bound dist s hcslen hcs) ?_
    exact List.Forall₂.cons
      (inBound_cast
        (show min s.pov_car.ticks_since_out_of_battery (300 - 1) < 300 by
          omega))
      List.Forall₂.nil
  exact ⟨hmain, hmain.length_eq, by decide⟩

/-- A charging station with no parked cars at the grid origin. -/
def c8Station : ChargingStation := ⟨⟨.Right, 0, 0⟩, []⟩

/-- A concrete well-formed snapshot with the configuration's 4 charging
stations. -/
def c8State : GridState :=
  ⟨egCar, [], [], [c8Station, c8Station, c8Station, c8Station],
   ⟨0, 0, 0⟩, 0, 0, true⟩

set_option maxRecDepth 4000 in
/-- C8 witness: the theorem applied to a concrete well-formed state. -/
theorem c8_observation_in_space_witness :
    List.Forall₂ inBound (parse_observation 4 (fun _ _ => 0) c8State)
      all_spaces
    ∧ (parse_observation 4 (fun _ _ => 0) c8State).length
        = all_spaces.length
    ∧ all_spaces.length = 184 :=
  c8_observation_in_space 4 (fun _ _ => 0) c8State (by decide)
